import Mathlib

/-!
Verification development for the distributed multi-node multi-GPU
K-Nearest-Neighbors classifier orchestration layer
(`cuml/dask/neighbors/kneighbors_classifier.py`) and for the test fixture
conversion utilities (`cuml/test/test_preproc_utils.py`).

The Python code is shallowly embedded: datasets are lists of partitions,
each partition owned by a worker; the per-call orchestration of
`predict` / `predict_proba` / `score` is modelled as pure functions that
also report, for each call, whether the communicator session was destroyed
and which remote tasks were executed.  Collaborators of the two source
files that live elsewhere in the repository (`parts_to_ranks`,
`flatten_grouped_results`, `raise_exception_from_futures`, `worker_state`,
`to_output`, `to_output_type`) are modelled from the specification, as
marked in their doc comments.
-/

/-- A dask worker address, identified here by a natural number. -/
abbrev Worker := Nat

/-- The datatype recorded by `DistributedDataHandler.create`:
`cupy` for distributed arrays, `cudf` for distributed dataframes. -/
inductive Datatype where
  | cupy
  | cudf
deriving DecidableEq

/-- Errors surfaced by the driver-side orchestration. -/
inductive KErr where
  /-- The error raised by `raise_mg_import_exception` when the
  `KNeighborsClassifierMG` import fails on a worker. -/
  | mgImport
  /-- A generic remote task failure; the payload identifies the original
  worker-side exception. -/
  | remote (code : Nat)
  /-- The `ValueError` raised by `score`, whose message reads
  `Only Dask arrays are supported`. -/
  | valueErrorOnlyDaskArrays
  /-- An IndexError raised inside a result-getter task and surfaced when the
  output is materialized. -/
  | indexError
deriving DecidableEq

/-- `DistributedDataHandler.worker_to_parts[w]`: the partitions a given worker
owns, in the dataset's original partition order (the empty list when the
worker owns none, matching the `if worker in ... else []` guard at the call
sites). -/
def worker_to_parts (parts : List (Worker × σ)) (w : Worker) : List σ :=
  (parts.filter (fun p => p.1 == w)).map (fun p => p.2)

/-- Modelled from the spec: `parts_to_ranks` (`cuml.dask.common`, absent from
`src/`).  Per section 4.1, it returns the ordered list of
(partition row count, owning rank) pairs in the dataset's original partition
order together with the total row count; ranks are the session's
`worker_info` ranks, modelled as positions in the session's worker-address
list (section 4.2: a contiguous 0-based rank assignment). -/
def parts_to_ranks (workers : List Worker) (parts : List (Worker × σ)) (sz : σ → Nat) :
    List (Nat × Nat) × Nat :=
  (parts.map (fun p => (sz p.2, workers.indexOf p.1)), (parts.map (fun p => sz p.2)).sum)

/-- The default getter of `flatten_grouped_results`: `f[idx]`, with an
out-of-range index modelled as `none` (Python IndexError). -/
def default_getter : List β → Nat → Option β := fun f idx => f[idx]?

/-- `_custom_getter(o)` from `kneighbors_classifier.py`: `f[o][idx]`, where
`f` is one worker's result tuple and `idx` the worker-local sub-index of a
partition.  An out-of-range access is modelled as `none`. -/
def custom_getter (o : Nat) : List (List β) → Nat → Option β :=
  fun f idx => (f.getD o [])[idx]?

/-- The partition walk of `flatten_grouped_results`: traverse the owning
ranks of the partitions in original order, keeping for every rank a counter
of already-collected partitions (`completed_part_map`), and collect the
getter value of the owning rank's result at that worker-local sub-index. -/
def flattenGo (resMap : Nat → ρ) (getter : ρ → Nat → Option β) :
    List Nat → (Nat → Nat) → Option (List β)
  | [], _ => some []
  | r :: rest, cnt =>
    match getter (resMap r) (cnt r) with
    | none => none
    | some b =>
      (flattenGo resMap getter rest (fun x => if x = r then cnt x + 1 else cnt x)).map
        (fun l => b :: l)

/-- Modelled from the spec: `flatten_grouped_results` (`cuml.dask.common`,
absent from `src/`).  Per section 4.5, it walks the parts-to-ranks table in
the dataset's original partition order and, for each partition, looks up the
rank that produced it and the worker-local sub-index it corresponds to, then
collects the getter value from that rank's result. -/
def flatten_grouped_results (table : List (Nat × Nat)) (resMap : Nat → ρ)
    (getter : ρ → Nat → Option β) : Option (List β) :=
  flattenGo resMap getter (table.map (fun e => e.2)) (fun _ => 0)

/-- The values of `pairs` whose rank component equals `r`, in order: the
worker-local batch of the rank-`r` worker. -/
def groupOfRank (pairs : List (Nat × β)) (r : Nat) : List β :=
  (pairs.filter (fun p => p.1 == r)).map (fun p => p.2)

theorem groupOfRank_cons_self (r : Nat) (b : β) (t : List (Nat × β)) :
    groupOfRank ((r, b) :: t) r = b :: groupOfRank t r := by
  simp [groupOfRank]

theorem groupOfRank_cons_ne (r q : Nat) (b : β) (t : List (Nat × β)) (h : q ≠ r) :
    groupOfRank ((r, b) :: t) q = groupOfRank t q := by
  have hb : (r == q) = false := beq_eq_false_iff_ne.mpr (fun he => h he.symm)
  simp [groupOfRank, List.filter_cons, hb]

/-- Core correctness of the flatten walk: when every rank's result list,
past the already-consumed prefix, is exactly that rank's worker-local batch,
the walk reconstructs the values in the original partition order. -/
theorem flattenGo_groups (resMap : Nat → ρ) (getter : ρ → Nat → Option β) (res : Nat → List β)
    (hg : ∀ r n, getter (resMap r) n = (res r)[n]?) :
    ∀ (pairs : List (Nat × β)) (cnt : Nat → Nat),
      (∀ r, (res r).drop (cnt r) = groupOfRank pairs r) →
      flattenGo resMap getter (pairs.map (fun p => p.1)) cnt = some (pairs.map (fun p => p.2)) := by
  intro pairs
  induction pairs with
  | nil => intro cnt _; simp [flattenGo]
  | cons hd tl ih =>
    intro cnt h
    obtain ⟨r, b⟩ := hd
    have h1 : (res r).drop (cnt r) = b :: groupOfRank tl r := by
      rw [h r, groupOfRank_cons_self]
    have hget : (res r)[cnt r]? = some b := by
      rw [← List.head?_drop, h1]
      rfl
    have hrec : ∀ q, (res q).drop (if q = r then cnt q + 1 else cnt q) = groupOfRank tl q := by
      intro q
      by_cases hq : q = r
      · subst hq
        rw [if_pos rfl, ← List.drop_drop, h1]
        rfl
      · rw [if_neg hq, h q, groupOfRank_cons_ne _ _ _ _ hq]
    have := ih (fun x => if x = r then cnt x + 1 else cnt x) hrec
    simp only [List.map_cons, flattenGo, hg, hget, this]
    rfl

/-- A value list mapped through `groupOfRank` commutes with building the
rank/value pairs. -/
theorem groupOfRank_map {π : Type _} (l : List π) (k : π → Nat) (v : π → β) (r : Nat) :
    groupOfRank (l.map (fun x => (k x, v x))) r = (l.filter (fun x => k x == r)).map v := by
  unfold groupOfRank
  rw [List.filter_map, List.map_map]
  rfl

/-- The worker-local batch of the rank-`r` worker (its partitions in original
dataset order, mapped through `g`) is exactly the rank-`r` group of the
dataset's (rank, value) pairs, provided ranks are positions in a
duplicate-free worker list containing every owner. -/
theorem rankGroup_eq (workers : List Worker) (hnd : workers.Nodup) (l : List (Worker × σ))
    (g : σ → τ) (hown : ∀ p ∈ l, p.1 ∈ workers) (r : Nat) :
    (match workers[r]? with
     | some w => (worker_to_parts l w).map g
     | none => []) =
    groupOfRank (l.map (fun p => (workers.indexOf p.1, g p.2))) r := by
  rw [groupOfRank_map l (fun p => workers.indexOf p.1) (fun p => g p.2) r]
  cases hw : workers[r]? with
  | none =>
    have hlen : workers.length ≤ r := List.getElem?_eq_none_iff.mp hw
    have hnil : l.filter (fun p => workers.indexOf p.1 == r) = [] := by
      rw [List.filter_eq_nil_iff]
      intro p hp
      have hlt : workers.indexOf p.1 < workers.length :=
        List.indexOf_lt_length.mpr (hown p hp)
      simp only [beq_iff_eq]
      omega
    rw [hnil]
    rfl
  | some w =>
    obtain ⟨hr, hwget⟩ := List.getElem?_eq_some.mp hw
    have hidx : workers.indexOf w = r := by
      have h0 := List.get_indexOf hnd ⟨r, hr⟩
      simp only [List.get_eq_getElem] at h0
      rw [hwget] at h0
      exact h0
    show (worker_to_parts l w).map g = _
    unfold worker_to_parts
    rw [List.map_map]
    have hfilters : l.filter (fun p => p.1 == w) =
        l.filter (fun p => workers.indexOf p.1 == r) := by
      apply List.filter_congr
      intro p hp
      have hmem := hown p hp
      by_cases hpe : p.1 = w
      · have hieq : workers.indexOf p.1 = r := by rw [hpe, hidx]
        simp [hpe, hieq, hidx]
      · have hne : workers.indexOf p.1 ≠ r := by
          intro hcontra
          have hlt : workers.indexOf p.1 < workers.length :=
            List.indexOf_lt_length.mpr hmem
          have h1 : workers[workers.indexOf p.1]? = some p.1 :=
            List.getElem?_eq_some.mpr ⟨hlt, List.indexOf_get hlt⟩
          rw [hcontra, hw] at h1
          exact hpe (Option.some.inj h1).symm
        simp [hpe, hne]
    rw [hfilters]
    rfl

/-- The model state a `fit` call leaves behind on the estimator object. -/
structure KNCModel (α L : Type) where
  /-- `self.data_handler`: the fitted index partitions (feature chunk paired
  with label chunk), each with its owning worker, in original order. -/
  dataParts : List (Worker × (List α × List L))
  /-- `self.data_handler.datatype`, recorded at fit time. -/
  fitDatatype : Datatype
  /-- `self.uniq_labels`: one list of distinct label values per output. -/
  uniq_labels : List (List L)
  /-- `self.n_unique`: the per-output label cardinalities. -/
  n_unique : List Nat
  /-- `self.datatype`: set by `predict`/`predict_proba` from the query
  handler; `none` before any prediction call. -/
  datatype : Option Datatype
deriving DecidableEq

/-- A distributed query dataset as seen by `predict`/`predict_proba`:
partitions with their owners in original order, the feature count
(`X.shape[1]`) and the query handler's datatype. -/
structure QueryInput (α : Type) where
  parts : List (Worker × List α)
  nfeatures : Nat
  datatype : Datatype
deriving DecidableEq

/-- The arguments of one remote `_func_predict` submission, as built inside
`predict`/`predict_proba` (one per worker address). -/
structure PredictTask (α L : Type) where
  /-- The worker the task is pinned to (`workers=[worker]`). -/
  placedOn : Worker
  /-- The worker whose session-local model is passed (`models[worker]`). -/
  modelOn : Worker
  dataParts : List (List α × List L)
  dataPartsToRanks : List (Nat × Nat)
  dataNrows : Nat
  queryParts : List (List α)
  queryPartsToRanks : List (Nat × Nat)
  queryNrows : Nat
  uniq_labels : List (List L)
  n_unique : List Nat
  ncols : Nat
  rank : Nat
  convert_dtype : Bool
  probas_only : Bool
deriving DecidableEq

/-- The outcome of one driver-side call: the returned value or the first
re-raised remote exception, whether `comms.destroy()` ran before the call
ended, the remote tasks that were executed (each exactly once, to
completion, by `wait`), and the estimator state after the call. -/
structure CallTrace (α L : Type) (γ : Type) where
  result : Except KErr γ
  destroyed : Bool
  executed : List (PredictTask α L)
  modelAfter : KNCModel α L

/-- The first exception among the futures of a wave, in submission order.
Modelled from the spec: `raise_exception_from_futures`
(`cuml.dask.common`, absent from `src/`) re-raises the originating worker's
exception in the caller when any task of the awaited wave failed. -/
def firstErr : List (Except KErr ρ) → Option KErr
  | [] => none
  | Except.error e :: _ => some e
  | Except.ok _ :: t => firstErr t

/-- Modelled from the spec: output materialization (`to_output`, section 6)
concatenates the flattened per-partition results, in partition order, into
the caller's output collection. -/
def to_output (futures : List (List β)) : List β :=
  futures.flatten

/-- Collect a list of optional values, failing if any is missing. -/
def seqOption : List (Option β) → Option (List β)
  | [] => some []
  | none :: _ => none
  | some b :: t => (seqOption t).map (fun l => b :: l)

/-- Modelled from the spec: the local KNN kernel of `predict`
(`KNeighborsClassifierMG.predict`, section 6), assumed correct and out of
scope.  Per worker it returns an ordered-by-local-query-partition tuple of
three channels (labels, neighbor indices, neighbor distances); each
partition's channel value has one row per query row and depends only on the
partition's content and the global, partition-independent inputs, here
abstracted by the per-row function `kerRow`. -/
def localKernelClf (kerRow : Nat → α → V) (qparts : List (List α)) : List (List (List V)) :=
  (List.range 3).map (fun o => qparts.map (fun part => part.map (kerRow o)))

/-- Modelled from the spec: the local KNN kernel of `predict_proba`
(`KNeighborsClassifierMG.predict_proba`, sections 6 and 8), assumed correct
and out of scope.  Per worker it returns one probability matrix per output
target and local query partition, with one row per query row and one column
per class of that target; the abstract `prob` supplies the entries. -/
def localKernelProba (prob : Nat → α → Nat → P) (nUnique : List Nat) (qparts : List (List α)) :
    List (List (List (List P))) :=
  (List.range nUnique.length).map (fun o =>
    qparts.map (fun part => part.map (fun row => (List.range (nUnique.getD o 0)).map (prob o row))))

namespace KNeighborsClassifier

/-- The column `i` of a two-dimensional label input. -/
def columnOf (rows : List (List L)) (i : Nat) : List L :=
  rows.filterMap (fun r => r[i]?)

/-- The label input of `fit`: a one-dimensional label vector (`y.ndim == 1`)
or a two-dimensional one with `ncols = y.shape[1]` output columns. -/
inductive YInput (L : Type) where
  | one (col : List L)
  | multi (ncols : Nat) (rows : List (List L))

/-- `KNeighborsClassifier.fit`: records the data handler and datatype and
eagerly computes `self.uniq_labels` (one distinct-value list per output
column, via `da.unique` on arrays or `.iloc[:, i].unique()` on dataframes,
both modelled as `List.dedup`, which has the same value set) and
`self.n_unique` (their lengths).  A one-dimensional non-array label input
reaches `y.shape[1]` on a series and fails, hence `none`. -/
def fit [DecidableEq L] (dataParts : List (Worker × (List α × List L))) (y : YInput L)
    (dt : Datatype) : Option (KNCModel α L) :=
  match dt, y with
  | Datatype.cupy, YInput.one col =>
    let uniq := [col.dedup]
    some { dataParts := dataParts, fitDatatype := dt, uniq_labels := uniq,
           n_unique := uniq.map List.length, datatype := none }
  | Datatype.cupy, YInput.multi K rows =>
    let uniq := (List.range K).map (fun i => (columnOf rows i).dedup)
    some { dataParts := dataParts, fitDatatype := dt, uniq_labels := uniq,
           n_unique := uniq.map List.length, datatype := none }
  | Datatype.cudf, YInput.multi K rows =>
    let uniq := (List.range K).map (fun i => (columnOf rows i).dedup)
    some { dataParts := dataParts, fitDatatype := dt, uniq_labels := uniq,
           n_unique := uniq.map List.length, datatype := none }
  | Datatype.cudf, YInput.one _ => none

/-- The handle delivered to a worker-side model: `worker_state(sessionId)["handle"]`.
Modelled from the spec: `worker_state` (`cuml.dask.common.comms`, absent from
`src/`) resolves, on the executing worker, that worker's session-local
communicator handle for the given session. -/
structure LocalModel (κ : Type) where
  handle : Nat
  kwargs : κ

/-- `KNeighborsClassifier._func_create_model`: imports
`KNeighborsClassifierMG`; on `ImportError` it raises the distinct
capability-missing error of `raise_mg_import_exception` (modelled from the
spec, section 7: an import/capability error, not a generic task failure);
otherwise it builds the local model bound to the worker's session-local
communicator handle and the hyperparameters. -/
def func_create_model {κ : Type} (importOk : Bool) (handleOf : Nat → Worker → Nat)
    (sessionId : Nat) (w : Worker) (kwargs : κ) : Except KErr (LocalModel κ) :=
  if importOk then Except.ok { handle := handleOf sessionId w, kwargs := kwargs }
  else Except.error KErr.mgImport

/-- `KNeighborsClassifier._func_predict`: dispatches on the mode flag to the
local kernel's probability or classification entry point. -/
def func_predict (modelPredict modelProba : PredictTask α L → ρ) (t : PredictTask α L) : ρ :=
  if t.probas_only then modelProba t else modelPredict t

/-- One remote `_func_predict` submission for worker `w`, with the argument
list built exactly as in `predict`/`predict_proba`. -/
def mkPredictTask (m : KNCModel α L) (q : QueryInput α) (workers : List Worker)
    (cd probas : Bool) (w : Worker) : PredictTask α L :=
  { placedOn := w
    modelOn := w
    dataParts := worker_to_parts m.dataParts w
    dataPartsToRanks := (parts_to_ranks workers m.dataParts (fun p => p.1.length)).1
    dataNrows := (parts_to_ranks workers m.dataParts (fun p => p.1.length)).2
    queryParts := worker_to_parts q.parts w
    queryPartsToRanks := (parts_to_ranks workers q.parts List.length).1
    queryNrows := (parts_to_ranks workers q.parts List.length).2
    uniq_labels := m.uniq_labels
    n_unique := m.n_unique
    ncols := q.nfeatures
    rank := workers.indexOf w
    convert_dtype := cd
    probas_only := probas }

/-- The wave of remote tasks `predict` submits: one per session worker. -/
def predictWave (m : KNCModel α L) (q : QueryInput α) (workers : List Worker)
    (cd : Bool) : List (PredictTask α L) :=
  workers.map (mkPredictTask m q workers cd false)

/-- The wave of remote tasks `predict_proba` submits: one per session worker. -/
def probaWave (m : KNCModel α L) (q : QueryInput α) (workers : List Worker)
    (cd : Bool) : List (PredictTask α L) :=
  workers.map (mkPredictTask m q workers cd true)

/-- The rank-keyed result dictionary `knn_clf_res`/`knn_prob_res` of a wave,
after the gate has established that every future resolved successfully:
rank `r` maps to the result tuple of the worker with rank `r` (the empty
tuple stands in for a rank outside the session, which the parts-to-ranks
table never references). -/
def rankResults (exec : PredictTask α L → Except KErr (List (List (List V))))
    (m : KNCModel α L) (q : QueryInput α) (workers : List Worker) (cd probas : Bool) :
    Nat → List (List (List V)) :=
  fun r =>
    match (workers[r]?).map (fun w => exec (mkPredictTask m q workers cd probas w)) with
    | some (Except.ok f) => f
    | _ => []

/-- The result/teardown core of `predict`: submit the wave, `wait` on it,
re-raise the first remote exception if any task failed (leaving the session
undisposed, since `comms.destroy()` only runs further down), otherwise
flatten the three result channels with `_custom_getter(0..2)`, destroy the
session and materialize the outputs. -/
def predictCore (exec : PredictTask α L → Except KErr (List (List (List V))))
    (m : KNCModel α L) (q : QueryInput α) (workers : List Worker) (cd : Bool) :
    Except KErr (List V × List V × List V) × Bool :=
  match firstErr ((predictWave m q workers cd).map exec) with
  | some e => (Except.error e, false)
  | none =>
    match flatten_grouped_results (parts_to_ranks workers q.parts List.length).1
            (rankResults exec m q workers cd false) (custom_getter 0),
          flatten_grouped_results (parts_to_ranks workers q.parts List.length).1
            (rankResults exec m q workers cd false) (custom_getter 1),
          flatten_grouped_results (parts_to_ranks workers q.parts List.length).1
            (rankResults exec m q workers cd false) (custom_getter 2) with
    | some a, some b, some c =>
      (Except.ok (to_output a, to_output b, to_output c), true)
    | _, _, _ => (Except.error KErr.indexError, true)

/-- `KNeighborsClassifier.predict`: records the query datatype on the
estimator, runs the distributed wave and returns the (labels, neighbor
indices, neighbor distances) triple. -/
def predict (exec : PredictTask α L → Except KErr (List (List (List V))))
    (m : KNCModel α L) (q : QueryInput α) (workers : List Worker) (cd : Bool) :
    CallTrace α L (List V × List V × List V) :=
  { result := (predictCore exec m q workers cd).1
    destroyed := (predictCore exec m q workers cd).2
    executed := predictWave m q workers cd
    modelAfter := { m with datatype := some q.datatype } }

/-- The result/teardown core of `predict_proba`: like `predictCore`, but
flattening one channel per output target (`n_outputs = len(self.n_unique)`)
with `_custom_getter(o)`. -/
def probaCore (exec : PredictTask α L → Except KErr (List (List (List V))))
    (m : KNCModel α L) (q : QueryInput α) (workers : List Worker) (cd : Bool) :
    Except KErr (List (List V)) × Bool :=
  match firstErr ((probaWave m q workers cd).map exec) with
  | some e => (Except.error e, false)
  | none =>
    match seqOption ((List.range m.n_unique.length).map
        (fun o => flatten_grouped_results (parts_to_ranks workers q.parts List.length).1
          (rankResults exec m q workers cd true) (custom_getter o))) with
    | some fs => (Except.ok (fs.map to_output), true)
    | none => (Except.error KErr.indexError, true)

/-- `KNeighborsClassifier.predict_proba`: records the query datatype, runs
the distributed wave and returns the tuple of per-target probability
outputs. -/
def predict_proba (exec : PredictTask α L → Except KErr (List (List (List V))))
    (m : KNCModel α L) (q : QueryInput α) (workers : List Worker) (cd : Bool) :
    CallTrace α L (List (List V)) :=
  { result := (probaCore exec m q workers cd).1
    destroyed := (probaCore exec m q workers cd).2
    executed := probaWave m q workers cd
    modelAfter := { m with datatype := some q.datatype } }

/-- `da.mean` of an elementwise-equality array: the fraction of `true`
entries. -/
def boolMean (l : List Bool) : ℚ :=
  ((l.count true : ℚ) / (l.length : ℚ))

/-- `KNeighborsClassifier.score`: runs the full distributed `predict` with
`convert_dtype=True`, compares the predicted labels elementwise with `y`,
and only then branches on the fit-time `self.data_handler.datatype`:
the mean accuracy for `cupy`, otherwise the `ValueError` whose message is
`Only Dask arrays are supported`. -/
def score [DecidableEq V] (exec : PredictTask α L → Except KErr (List (List (List V))))
    (m : KNCModel α L) (q : QueryInput α) (y : List V) (workers : List Worker) :
    CallTrace α L ℚ :=
  let t := predict exec m q workers true
  match t.result with
  | Except.error e =>
    { result := Except.error e, destroyed := t.destroyed, executed := t.executed,
      modelAfter := t.modelAfter }
  | Except.ok (labels, _, _) =>
    let diff := List.zipWith (fun a b => decide (a = b)) labels y
    if t.modelAfter.fitDatatype = Datatype.cupy then
      { result := Except.ok (boolMean diff), destroyed := t.destroyed, executed := t.executed,
        modelAfter := t.modelAfter }
    else
      { result := Except.error KErr.valueErrorOnlyDaskArrays, destroyed := t.destroyed,
        executed := t.executed, modelAfter := t.modelAfter }

end KNeighborsClassifier

/-- `getD` on a mapped range picks the function value. -/
theorem getD_range_map {γ : Type _} (n o : Nat) (f : Nat → γ) (d : γ) (ho : o < n) :
    ((List.range n).map f).getD o d = f o := by
  rw [List.getD_eq_getElem?_getD, List.getElem?_map, List.getElem?_range ho]
  rfl

namespace KNeighborsClassifier

/-- A wave in which every remote task succeeded has no exception to
re-raise. -/
theorem firstErr_map_eq_none {τ ρ : Type _} (f : τ → Except KErr ρ) :
    ∀ l : List τ, (∀ t ∈ l, ∃ v, f t = Except.ok v) → firstErr (l.map f) = none := by
  intro l h
  induction l with
  | nil => rfl
  | cons x t ih =>
    obtain ⟨v, hv⟩ := h x (List.mem_cons_self x t)
    rw [List.map_cons, hv]
    exact ih (fun s hs => h s (List.mem_cons_of_mem x hs))

/-- Channel `o` of the rank-keyed classification results is exactly the
rank's worker-local batch of per-partition channel values. -/
theorem rankResults_clf (exec : PredictTask α L → Except KErr (List (List (List V))))
    (kerRow : Nat → α → V) (m : KNCModel α L) (q : QueryInput α) (workers : List Worker)
    (cd : Bool) (hnd : workers.Nodup) (hown : ∀ p ∈ q.parts, p.1 ∈ workers)
    (hexec : ∀ t ∈ predictWave m q workers cd,
      exec t = Except.ok (localKernelClf kerRow t.queryParts))
    (o : Nat) (ho : o < 3) (r : Nat) :
    (rankResults exec m q workers cd false r).getD o [] =
      groupOfRank (q.parts.map (fun p => (workers.indexOf p.1, p.2.map (kerRow o)))) r := by
  rw [← rankGroup_eq workers hnd q.parts (fun part => part.map (kerRow o)) hown r]
  cases hw : workers[r]? with
  | none => simp [rankResults, hw]
  | some w =>
    have hwmem : w ∈ workers := by
      obtain ⟨h1, h2⟩ := List.getElem?_eq_some.mp hw
      exact h2 ▸ List.getElem_mem h1
    have hex := hexec _ (List.mem_map.mpr ⟨w, hwmem, rfl⟩)
    unfold rankResults
    rw [hw]
    simp only [Option.map_some']
    rw [hex]
    show (localKernelClf kerRow (worker_to_parts q.parts w)).getD o [] = _
    unfold localKernelClf
    rw [getD_range_map 3 o _ [] ho]

/-- Flattening channel `o` of a fully successful classification wave
reproduces the per-partition channel values in original partition order. -/
theorem flatten_channel_clf (exec : PredictTask α L → Except KErr (List (List (List V))))
    (kerRow : Nat → α → V) (m : KNCModel α L) (q : QueryInput α) (workers : List Worker)
    (cd : Bool) (hnd : workers.Nodup) (hown : ∀ p ∈ q.parts, p.1 ∈ workers)
    (hexec : ∀ t ∈ predictWave m q workers cd,
      exec t = Except.ok (localKernelClf kerRow t.queryParts))
    (o : Nat) (ho : o < 3) :
    flatten_grouped_results (parts_to_ranks workers q.parts List.length).1
      (rankResults exec m q workers cd false) (custom_getter o) =
      some (q.parts.map (fun p => p.2.map (kerRow o))) := by
  unfold flatten_grouped_results
  have hranks : ((parts_to_ranks workers q.parts List.length).1).map (fun e => e.2) =
      (q.parts.map (fun p => (workers.indexOf p.1, p.2.map (kerRow o)))).map (fun p => p.1) := by
    simp [parts_to_ranks, List.map_map]
  rw [hranks]
  rw [flattenGo_groups (rankResults exec m q workers cd false) (custom_getter o)
      (fun r => (rankResults exec m q workers cd false r).getD o [])
      (fun r n => rfl)
      (q.parts.map (fun p => (workers.indexOf p.1, p.2.map (kerRow o))))
      (fun _ => 0)
      (by
        intro r
        rw [List.drop_zero]
        exact rankResults_clf exec kerRow m q workers cd hnd hown hexec o ho r)]
  congr 1
  simp [List.map_map]

/-- `predictCore` of a fully successful wave: the three channels flattened
in original partition order and materialized, with the session destroyed. -/
theorem predictCore_ok (exec : PredictTask α L → Except KErr (List (List (List V))))
    (kerRow : Nat → α → V) (m : KNCModel α L) (q : QueryInput α) (workers : List Worker)
    (cd : Bool) (hnd : workers.Nodup) (hown : ∀ p ∈ q.parts, p.1 ∈ workers)
    (hexec : ∀ t ∈ predictWave m q workers cd,
      exec t = Except.ok (localKernelClf kerRow t.queryParts)) :
    predictCore exec m q workers cd =
      (Except.ok (to_output (q.parts.map (fun p => p.2.map (kerRow 0))),
                  to_output (q.parts.map (fun p => p.2.map (kerRow 1))),
                  to_output (q.parts.map (fun p => p.2.map (kerRow 2)))), true) := by
  have hfe : firstErr ((predictWave m q workers cd).map exec) = none :=
    firstErr_map_eq_none exec _ (fun t ht => ⟨_, hexec t ht⟩)
  unfold predictCore
  rw [hfe,
    flatten_channel_clf exec kerRow m q workers cd hnd hown hexec 0 (by omega),
    flatten_channel_clf exec kerRow m q workers cd hnd hown hexec 1 (by omega),
    flatten_channel_clf exec kerRow m q workers cd hnd hown hexec 2 (by omega)]

end KNeighborsClassifier

/-- `seqOption` of a list of present values collects them. -/
theorem seqOption_map_some {γ δ : Type _} (e : γ → δ) :
    ∀ l : List γ, seqOption (l.map (fun x => some (e x))) = some (l.map e) := by
  intro l
  induction l with
  | nil => rfl
  | cons x t ih => simp [seqOption, ih]

namespace KNeighborsClassifier

/-- Channel `o` of the rank-keyed probability results is exactly the rank's
worker-local batch of per-partition probability matrices for target `o`. -/
theorem rankResults_proba (exec : PredictTask α L → Except KErr (List (List (List (List P)))))
    (prob : Nat → α → Nat → P) (m : KNCModel α L) (q : QueryInput α) (workers : List Worker)
    (cd : Bool) (hnd : workers.Nodup) (hown : ∀ p ∈ q.parts, p.1 ∈ workers)
    (hexec : ∀ t ∈ probaWave m q workers cd,
      exec t = Except.ok (localKernelProba prob t.n_unique t.queryParts))
    (o : Nat) (ho : o < m.n_unique.length) (r : Nat) :
    (rankResults exec m q workers cd true r).getD o [] =
      groupOfRank (q.parts.map (fun p => (workers.indexOf p.1,
        p.2.map (fun row => (List.range (m.n_unique.getD o 0)).map (prob o row))))) r := by
  rw [← rankGroup_eq workers hnd q.parts
    (fun part => part.map (fun row => (List.range (m.n_unique.getD o 0)).map (prob o row)))
    hown r]
  cases hw : workers[r]? with
  | none => simp [rankResults, hw]
  | some w =>
    have hwmem : w ∈ workers := by
      obtain ⟨h1, h2⟩ := List.getElem?_eq_some.mp hw
      exact h2 ▸ List.getElem_mem h1
    have hex := hexec _ (List.mem_map.mpr ⟨w, hwmem, rfl⟩)
    unfold rankResults
    rw [hw]
    simp only [Option.map_some']
    rw [hex]
    show (localKernelProba prob m.n_unique (worker_to_parts q.parts w)).getD o [] = _
    unfold localKernelProba
    rw [getD_range_map m.n_unique.length o _ [] ho]

/-- Flattening target `o` of a fully successful probability wave reproduces
the per-partition probability matrices in original partition order. -/
theorem flatten_channel_proba (exec : PredictTask α L → Except KErr (List (List (List (List P)))))
    (prob : Nat → α → Nat → P) (m : KNCModel α L) (q : QueryInput α) (workers : List Worker)
    (cd : Bool) (hnd : workers.Nodup) (hown : ∀ p ∈ q.parts, p.1 ∈ workers)
    (hexec : ∀ t ∈ probaWave m q workers cd,
      exec t = Except.ok (localKernelProba prob t.n_unique t.queryParts))
    (o : Nat) (ho : o < m.n_unique.length) :
    flatten_grouped_results (parts_to_ranks workers q.parts List.length).1
      (rankResults exec m q workers cd true) (custom_getter o) =
      some (q.parts.map (fun p =>
        p.2.map (fun row => (List.range (m.n_unique.getD o 0)).map (prob o row)))) := by
  unfold flatten_grouped_results
  have hranks : ((parts_to_ranks workers q.parts List.length).1).map (fun e => e.2) =
      (q.parts.map (fun p => (workers.indexOf p.1,
        p.2.map (fun row => (List.range (m.n_unique.getD o 0)).map (prob o row))))).map
        (fun p => p.1) := by
    simp [parts_to_ranks, List.map_map]
  rw [hranks]
  rw [flattenGo_groups (rankResults exec m q workers cd true) (custom_getter o)
      (fun r => (rankResults exec m q workers cd true r).getD o [])
      (fun r n => rfl)
      (q.parts.map (fun p => (workers.indexOf p.1,
        p.2.map (fun row => (List.range (m.n_unique.getD o 0)).map (prob o row)))))
      (fun _ => 0)
      (by
        intro r
        rw [List.drop_zero]
        exact rankResults_proba exec prob m q workers cd hnd hown hexec o ho r)]
  congr 1
  simp [List.map_map]

/-- `probaCore` of a fully successful wave: one flattened, materialized
output per target, with the session destroyed. -/
theorem probaCore_ok (exec : PredictTask α L → Except KErr (List (List (List (List P)))))
    (prob : Nat → α → Nat → P) (m : KNCModel α L) (q : QueryInput α) (workers : List Worker)
    (cd : Bool) (hnd : workers.Nodup) (hown : ∀ p ∈ q.parts, p.1 ∈ workers)
    (hexec : ∀ t ∈ probaWave m q workers cd,
      exec t = Except.ok (localKernelProba prob t.n_unique t.queryParts)) :
    probaCore exec m q workers cd =
      (Except.ok ((List.range m.n_unique.length).map (fun o =>
        to_output (q.parts.map (fun p =>
          p.2.map (fun row => (List.range (m.n_unique.getD o 0)).map (prob o row)))))), true) := by
  have hfe : firstErr ((probaWave m q workers cd).map exec) = none :=
    firstErr_map_eq_none exec _ (fun t ht => ⟨_, hexec t ht⟩)
  unfold probaCore
  rw [hfe]
  have hsc : (List.range m.n_unique.length).map
      (fun o => flatten_grouped_results (parts_to_ranks workers q.parts List.length).1
        (rankResults exec m q workers cd true) (custom_getter o)) =
      (List.range m.n_unique.length).map (fun o => some (q.parts.map (fun p =>
        p.2.map (fun row => (List.range (m.n_unique.getD o 0)).map (prob o row))))) := by
    apply List.map_congr_left
    intro o hoin
    exact flatten_channel_proba exec prob m q workers cd hnd hown hexec o (List.mem_range.mp hoin)
  rw [hsc, seqOption_map_some (fun o => q.parts.map (fun p =>
    p.2.map (fun row => (List.range (m.n_unique.getD o 0)).map (prob o row))))]
  simp [List.map_map]

/-- Filtering a wave built over a worker list by placement worker commutes
down to the worker list. -/
theorem map_filter_placed (g : Worker → PredictTask α L) (hpl : ∀ x, (g x).placedOn = x)
    (w : Worker) : ∀ l : List Worker,
    (l.map g).filter (fun t => t.placedOn == w) = (l.filter (fun x => x == w)).map g := by
  intro l
  induction l with
  | nil => rfl
  | cons x t ih =>
    simp only [List.map_cons, List.filter_cons, hpl x]
    cases hx : (x == w) with
    | true => simp [hx, ih]
    | false => simp [hx, ih]

/-- A duplicate-free list retains exactly one copy of a member under the
equality filter. -/
theorem nodup_filter_eq_one (w : Worker) : ∀ l : List Worker, l.Nodup → w ∈ l →
    (l.filter (fun x => x == w)).length = 1 := by
  intro l
  induction l with
  | nil => intro _ h; cases h
  | cons x t ih =>
    intro hnd hmem
    rw [List.filter_cons]
    by_cases hx : x = w
    · subst hx
      have hnotin : x ∉ t := (List.nodup_cons.mp hnd).1
      have hnil : t.filter (fun y => y == x) = [] := by
        rw [List.filter_eq_nil_iff]
        intro a ha
        simp only [beq_iff_eq]
        intro hax
        exact hnotin (hax ▸ ha)
      simp [hnil]
    · have hxf : (x == w) = false := beq_eq_false_iff_ne.mpr hx
      rw [if_neg (by simp [hxf])]
      have hmem2 : w ∈ t := by
        cases hmem with
        | head => exact absurd rfl hx
        | tail _ h => exact h
      exact ih (List.nodup_cons.mp hnd).2 hmem2

end KNeighborsClassifier

/-- Python `int(0.3 * n)` for a nonnegative integer `n`: the partition count
drawn by `cp.random.choice(dataset.size, int(dataset.size * 0.3), replace=False)`.
For the sizes in use this equals the integer floor of `3 * n / 10`. -/
def sparsifyCount (n : Nat) : Nat := 3 * n / 10

/-- A two-dimensional numpy/cupy array: shape, memory-order flag and logical
entries in row-major (C) order.  The fixtures produce Fortran-ordered arrays
(`cp.asfortranarray`, `make_classification(order=F)`). -/
structure NDArr (P : Type) where
  nrows : Nat
  ncols : Nat
  fortran : Bool
  data : List P
deriving DecidableEq

/-- C-contiguity of a two-dimensional array: row-major memory, or a
degenerate dimension (for which both orders coincide). -/
def cContiguous (a : NDArr P) : Bool :=
  !a.fortran || decide (a.nrows ≤ 1) || decide (a.ncols ≤ 1)

/-- Assign zero at the given flat (C-order) positions. -/
def zeroAtLocs [Zero P] (flat : List P) (locs : List Nat) : List P :=
  flat.enum.map (fun iv => if iv.1 ∈ locs then 0 else iv.2)

/-- The statement `dataset.ravel()[random_loc] = 0` of `sparsify_and_convert`,
under the documented numpy/cupy semantics: `ravel()` (C order) returns a view
exactly when the array is C-contiguous, and otherwise returns a copy, in
which case the indexed assignment mutates only the discarded copy and the
array is left unchanged. -/
def ravelAssignZero [Zero P] (a : NDArr P) (locs : List Nat) : NDArr P :=
  if cContiguous a then { a with data := zeroAtLocs a.data locs } else a

/-- Split a flat C-order buffer into `r` rows of `ncols` entries. -/
def chunkRows : Nat → Nat → List P → List (List P)
  | _, 0, _ => []
  | ncols, r + 1, l => l.take ncols :: chunkRows ncols r (l.drop ncols)

/-- The dense rows of an array. -/
def NDArr.toRows (a : NDArr P) : List (List P) :=
  chunkRows a.ncols a.nrows a.data

/-- The stored (column index, value) pairs of one dense row starting at
column `j`: the nonzero entries, in column order. -/
def rowEnc [Zero P] [DecidableEq P] : List P → Nat → List (Nat × P)
  | [], _ => []
  | v :: t, j => if v = 0 then rowEnc t (j + 1) else (j, v) :: rowEnc t (j + 1)

/-- Reconstruct a dense row of width `n` from stored (column, value) pairs;
unstored columns are zero. -/
def rowDec [Zero P] (n : Nat) (enc : List (Nat × P)) : List P :=
  (List.range n).map (fun j =>
    match enc.find? (fun e => e.1 == j) with
    | some e => e.2
    | none => 0)

/-- A compressed-sparse-row matrix: per dense row, its stored nonzeros. -/
structure CsrMat (P : Type) where
  nrows : Nat
  ncols : Nat
  rowsEnc : List (List (Nat × P))
deriving DecidableEq

/-- `csr_matrix` of a dense matrix. -/
def csrOfDense [Zero P] [DecidableEq P] (rows : List (List P)) (ncols : Nat) : CsrMat P :=
  { nrows := rows.length, ncols := ncols, rowsEnc := rows.map (fun r => rowEnc r 0) }

/-- Densify a CSR matrix. -/
def CsrMat.toDense [Zero P] (m : CsrMat P) : List (List P) :=
  m.rowsEnc.map (fun e => rowDec m.ncols e)

/-- Column `j` of a dense matrix. -/
def colOfDense [Zero P] (rows : List (List P)) (j : Nat) : List P :=
  rows.map (fun r => r.getD j 0)

/-- A compressed-sparse-column matrix: per dense column, its stored
nonzeros. -/
structure CscMat (P : Type) where
  nrows : Nat
  ncols : Nat
  colsEnc : List (List (Nat × P))
deriving DecidableEq

/-- `csc_matrix` of a dense matrix. -/
def cscOfDense [Zero P] [DecidableEq P] (rows : List (List P)) (ncols : Nat) : CscMat P :=
  { nrows := rows.length, ncols := ncols,
    colsEnc := (List.range ncols).map (fun j => rowEnc (colOfDense rows j) 0) }

/-- Densify a CSC matrix. -/
def CscMat.toDense [Zero P] (m : CscMat P) : List (List P) :=
  (List.range m.nrows).map (fun i =>
    (m.colsEnc.map (fun e => rowDec m.nrows e)).map (fun c => c.getD i 0))

/-- The `conversion_format` parameter of `sparsify_and_convert`. -/
inductive SpFormat where
  | scipyCsr
  | scipyCsc
  | cupyCsr
  | cupyCsc
deriving DecidableEq

/-- A converted sparse matrix; the flag records device residence
(cupy versus scipy), `cp.asnumpy` being a value-preserving transfer. -/
inductive SparseMat (P : Type) where
  | csr (gpu : Bool) (m : CsrMat P)
  | csc (gpu : Bool) (m : CscMat P)
deriving DecidableEq

/-- Densify a converted sparse matrix. -/
def SparseMat.toDense [Zero P] : SparseMat P → List (List P)
  | SparseMat.csr _ m => m.toDense
  | SparseMat.csc _ m => m.toDense

/-- `sparsify_and_convert` from `test_preproc_utils.py`: runs
`dataset.ravel()[random_loc] = 0`, then builds the requested sparse matrix
and the reference `cpu_csr_matrix(cp.asnumpy(dataset))`.  The returned
triple is (the caller's array after the call, the reference CSR matrix, the
converted matrix); `random_loc` stands for the distinct positions drawn by
`cp.random.choice` without replacement. -/
def sparsify_and_convert [Zero P] [DecidableEq P] (dataset : NDArr P) (fmt : SpFormat)
    (random_loc : List Nat) : NDArr P × CsrMat P × SparseMat P :=
  let d := ravelAssignZero dataset random_loc
  match fmt with
  | SpFormat.scipyCsr =>
    (d, csrOfDense d.toRows d.ncols, SparseMat.csr false (csrOfDense d.toRows d.ncols))
  | SpFormat.scipyCsc =>
    (d, csrOfDense d.toRows d.ncols, SparseMat.csc false (cscOfDense d.toRows d.ncols))
  | SpFormat.cupyCsr =>
    (d, csrOfDense d.toRows d.ncols, SparseMat.csr true (csrOfDense d.toRows d.ncols))
  | SpFormat.cupyCsc =>
    (d, csrOfDense d.toRows d.ncols, SparseMat.csc true (cscOfDense d.toRows d.ncols))

/-- The `conversion_format` parameter of the dense `convert` helper. -/
inductive OutFormat where
  | numpy
  | dataframe
  | cupy
  | cudf
  | numba
deriving DecidableEq

/-- Modelled from the spec: `to_output_type` (`cuml.thirdparty_adapters`,
absent from `src/`), a dataset-format-conversion adapter (section 2)
specified only at its boundary: it converts a dataset to the requested
format preserving the values, modelled as the values tagged with the
format. -/
def to_output_type (a : NDArr P) (fmt : OutFormat) : OutFormat × List (List P) :=
  (fmt, a.toRows)

/-- `convert` from `test_preproc_utils.py`: the pair of the numpy reference
(`cp.asnumpy(dataset)`, value-preserving) and the converted dataset. -/
def convert (a : NDArr P) (fmt : OutFormat) : List (List P) × (OutFormat × List (List P)) :=
  (a.toRows, to_output_type a fmt)

/-- The failing input for the sparsification step: a Fortran-ordered 2 by 2
array, as both fixtures produce (`create_rand_integers` applies
`cp.asfortranarray`; `create_rand_clf` requests order F). -/
def cexArr : NDArr Int :=
  { nrows := 2, ncols := 2, fortran := true, data := [1, 2, 3, 4] }

/-- C10: on the Fortran-ordered arrays the fixtures produce, a 2-D array is
not C-contiguous, so `dataset.ravel()` is a copy and the zeroing assignment
leaves the input unchanged: position 0 is drawn (the correct count of
distinct in-range positions) yet still holds its nonzero value afterwards,
for every conversion format.  On a C-ordered array the very same assignment
does zero position 0, and the returned (reference, converted) pair still
densifies identically. -/
theorem claim10_sparsify_noop :
    sparsifyCount cexArr.data.length = 1 ∧
    ([0] : List Nat).Nodup ∧
    (∀ i ∈ ([0] : List Nat), i < cexArr.data.length) ∧
    (∀ fmt, (sparsify_and_convert cexArr fmt [0]).1 = cexArr) ∧
    cexArr.data.getD 0 0 = 1 ∧
    ((cexArr.data.getD 0 0 == 0) = false) ∧
    (ravelAssignZero { cexArr with fortran := false } [0]).data.getD 0 0 = 0 ∧
    (∀ fmt, (sparsify_and_convert cexArr fmt [0]).2.1.toDense =
      (sparsify_and_convert cexArr fmt [0]).2.2.toDense) := by
  refine ⟨rfl, by decide, by decide, ?_, rfl, by decide, rfl, ?_⟩
  · intro fmt
    cases fmt <;> rfl
  · intro fmt
    cases fmt <;> rfl

/-- C1: flattening the per-rank result groups over the query parts-to-ranks
table yields one result per query partition, and concatenating the output in
the query dataset's original partition order reproduces the row order of the
original query dataset exactly, for every assignment of partitions to
workers. -/
theorem claim1_flatten_row_order (workers : List Worker) (qparts : List (Worker × List α))
    (hnd : workers.Nodup) (hown : ∀ p ∈ qparts, p.1 ∈ workers) :
    ∃ out, flatten_grouped_results (parts_to_ranks workers qparts List.length).1
        (fun r => match workers[r]? with
          | some w => worker_to_parts qparts w
          | none => []) default_getter = some out ∧
      out.length = qparts.length ∧
      out.flatten = (qparts.map (fun p => p.2)).flatten := by
  refine ⟨qparts.map (fun p => p.2), ?_, by simp, rfl⟩
  unfold flatten_grouped_results
  have hranks : ((parts_to_ranks workers qparts List.length).1).map (fun e => e.2) =
      (qparts.map (fun p => (workers.indexOf p.1, p.2))).map (fun p => p.1) := by
    simp [parts_to_ranks, List.map_map]
  rw [hranks]
  rw [flattenGo_groups
      (fun r => match workers[r]? with
        | some w => worker_to_parts qparts w
        | none => [])
      default_getter
      (fun r => match workers[r]? with
        | some w => worker_to_parts qparts w
        | none => [])
      (fun r n => rfl)
      (qparts.map (fun p => (workers.indexOf p.1, p.2)))
      (fun _ => 0)
      (by
        intro r
        rw [List.drop_zero]
        have h0 := rankGroup_eq workers hnd qparts (fun x => x) hown r
        simpa using h0)]
  congr 1
  simp [List.map_map]

/-- C1 witness: a concrete three-partition query dataset spread over two
workers, flattened back into original order. -/
theorem claim1_witness :
    ∃ out, flatten_grouped_results
        (parts_to_ranks [7, 3] [(3, [10, 20]), (7, [30]), (3, [40])] List.length).1
        (fun r => match ([7, 3] : List Worker)[r]? with
          | some w => worker_to_parts [(3, [10, 20]), (7, [30]), (3, [40])] w
          | none => []) default_getter = some out ∧
      out.length = ([(3, [10, 20]), (7, [30]), (3, [40])] : List (Worker × List Nat)).length ∧
      out.flatten =
        (([(3, [10, 20]), (7, [30]), (3, [40])] : List (Worker × List Nat)).map
          (fun p => p.2)).flatten :=
  claim1_flatten_row_order [7, 3] [(3, [10, 20]), (7, [30]), (3, [40])]
    (by decide) (by decide)

namespace KNeighborsClassifier

/-- The session is destroyed in `predictCore` exactly when no task of the
wave raised. -/
theorem predictCore_destroyed (exec : PredictTask α L → Except KErr (List (List (List V))))
    (m : KNCModel α L) (q : QueryInput α) (workers : List Worker) (cd : Bool) :
    (predictCore exec m q workers cd).2 =
      (firstErr ((predictWave m q workers cd).map exec)).isNone := by
  unfold predictCore
  split
  next e heq =>
    rw [heq]
    rfl
  next heq =>
    rw [heq]
    split <;> rfl

/-- The session is destroyed in `probaCore` exactly when no task of the
wave raised. -/
theorem probaCore_destroyed (exec : PredictTask α L → Except KErr (List (List (List V))))
    (m : KNCModel α L) (q : QueryInput α) (workers : List Worker) (cd : Bool) :
    (probaCore exec m q workers cd).2 =
      (firstErr ((probaWave m q workers cd).map exec)).isNone := by
  unfold probaCore
  split
  next e heq =>
    rw [heq]
    rfl
  next heq =>
    rw [heq]
    split <;> rfl

end KNeighborsClassifier

/-- C2 (amended): in `predict` and `predict_proba` the communicator session
is destroyed exactly on the calls whose submitted wave completes without any
task raising; on the exit path where a task raises and the remote exception
is re-raised in the caller, `comms.destroy()` is never reached. -/
theorem claim2_destroy_only_on_clean_wave
    (exec : PredictTask α L → Except KErr (List (List (List V))))
    (m : KNCModel α L) (q : QueryInput α) (workers : List Worker) (cd : Bool) :
    ((KNeighborsClassifier.predict exec m q workers cd).destroyed = true ↔
      firstErr ((KNeighborsClassifier.predictWave m q workers cd).map exec) = none) ∧
    ((KNeighborsClassifier.predict_proba exec m q workers cd).destroyed = true ↔
      firstErr ((KNeighborsClassifier.probaWave m q workers cd).map exec) = none) := by
  constructor
  · show (KNeighborsClassifier.predictCore exec m q workers cd).2 = true ↔ _
    rw [KNeighborsClassifier.predictCore_destroyed]
    exact Option.isNone_iff_eq_none
  · show (KNeighborsClassifier.probaCore exec m q workers cd).2 = true ↔ _
    rw [KNeighborsClassifier.probaCore_destroyed]
    exact Option.isNone_iff_eq_none

/-- The model state used in the concrete counterexample runs. -/
def cexModel : KNCModel Nat Nat :=
  { dataParts := [(0, ([10], [1]))]
    fitDatatype := Datatype.cupy
    uniq_labels := [[1]]
    n_unique := [1]
    datatype := none }

/-- The query input used in the concrete counterexample runs. -/
def cexQuery : QueryInput Nat :=
  { parts := [(0, [9])], nfeatures := 1, datatype := Datatype.cupy }

/-- An execution in which every remote task raises. -/
def cexExec : PredictTask Nat Nat → Except KErr (List (List (List Nat))) :=
  fun _ => Except.error (KErr.remote 3)

/-- C2 counterexample: a concrete `predict` call in which the single remote
task raises; the remote exception is re-raised in the caller, yet the
session was never destroyed, so `destroy()` is not invoked on every exit
path. -/
theorem claim2_counterexample :
    (KNeighborsClassifier.predict cexExec cexModel cexQuery [0] true).result =
      Except.error (KErr.remote 3) ∧
    (KNeighborsClassifier.predict cexExec cexModel cexQuery [0] true).destroyed = false :=
  ⟨rfl, rfl⟩

/-- C3: for each worker address of the session, `predict` and
`predict_proba` submit exactly one remote task, placed on that worker and
carrying that worker's own index-data partitions (empty when it owns none),
the full data parts-to-ranks table and data row total, its own query
partitions (empty when it owns none), the full query parts-to-ranks table
and query row total, the cached unique-label sets and cardinalities, the
feature count, the worker's own rank, the dtype-conversion flag, and the
mode flag on which `_func_predict` selects classification versus
probability behavior. -/
theorem claim3_one_task_per_worker {ρ : Type _} (m : KNCModel α L) (q : QueryInput α)
    (workers : List Worker) (cd : Bool) (hnd : workers.Nodup) (w : Worker) (hw : w ∈ workers)
    (modelPredict modelProba : PredictTask α L → ρ) :
    ((KNeighborsClassifier.predictWave m q workers cd).filter
        (fun t => t.placedOn == w)).length = 1 ∧
    (∀ t ∈ KNeighborsClassifier.predictWave m q workers cd, t.placedOn = w →
      t = { placedOn := w
            modelOn := w
            dataParts := worker_to_parts m.dataParts w
            dataPartsToRanks := (parts_to_ranks workers m.dataParts (fun p => p.1.length)).1
            dataNrows := (parts_to_ranks workers m.dataParts (fun p => p.1.length)).2
            queryParts := worker_to_parts q.parts w
            queryPartsToRanks := (parts_to_ranks workers q.parts List.length).1
            queryNrows := (parts_to_ranks workers q.parts List.length).2
            uniq_labels := m.uniq_labels
            n_unique := m.n_unique
            ncols := q.nfeatures
            rank := workers.indexOf w
            convert_dtype := cd
            probas_only := false }) ∧
    (∀ t ∈ KNeighborsClassifier.predictWave m q workers cd,
      KNeighborsClassifier.func_predict modelPredict modelProba t = modelPredict t) ∧
    ((KNeighborsClassifier.probaWave m q workers cd).filter
        (fun t => t.placedOn == w)).length = 1 ∧
    (∀ t ∈ KNeighborsClassifier.probaWave m q workers cd, t.placedOn = w →
      t = { placedOn := w
            modelOn := w
            dataParts := worker_to_parts m.dataParts w
            dataPartsToRanks := (parts_to_ranks workers m.dataParts (fun p => p.1.length)).1
            dataNrows := (parts_to_ranks workers m.dataParts (fun p => p.1.length)).2
            queryParts := worker_to_parts q.parts w
            queryPartsToRanks := (parts_to_ranks workers q.parts List.length).1
            queryNrows := (parts_to_ranks workers q.parts List.length).2
            uniq_labels := m.uniq_labels
            n_unique := m.n_unique
            ncols := q.nfeatures
            rank := workers.indexOf w
            convert_dtype := cd
            probas_only := true }) ∧
    (∀ t ∈ KNeighborsClassifier.probaWave m q workers cd,
      KNeighborsClassifier.func_predict modelPredict modelProba t = modelProba t) := by
  refine ⟨?_, ?_, ?_, ?_, ?_, ?_⟩
  · unfold KNeighborsClassifier.predictWave
    rw [KNeighborsClassifier.map_filter_placed
      (KNeighborsClassifier.mkPredictTask m q workers cd false) (fun x => rfl) w workers,
      List.length_map]
    exact KNeighborsClassifier.nodup_filter_eq_one w workers hnd hw
  · intro t ht hplaced
    unfold KNeighborsClassifier.predictWave at ht
    obtain ⟨x, _, rfl⟩ := List.mem_map.mp ht
    have hx : x = w := hplaced
    subst hx
    rfl
  · intro t ht
    unfold KNeighborsClassifier.predictWave at ht
    obtain ⟨x, _, rfl⟩ := List.mem_map.mp ht
    rfl
  · unfold KNeighborsClassifier.probaWave
    rw [KNeighborsClassifier.map_filter_placed
      (KNeighborsClassifier.mkPredictTask m q workers cd true) (fun x => rfl) w workers,
      List.length_map]
    exact KNeighborsClassifier.nodup_filter_eq_one w workers hnd hw
  · intro t ht hplaced
    unfold KNeighborsClassifier.probaWave at ht
    obtain ⟨x, _, rfl⟩ := List.mem_map.mp ht
    have hx : x = w := hplaced
    subst hx
    rfl
  · intro t ht
    unfold KNeighborsClassifier.probaWave at ht
    obtain ⟨x, _, rfl⟩ := List.mem_map.mp ht
    rfl

/-- A concrete fitted-model state used by the witnesses. -/
def exModel : KNCModel Nat Nat :=
  { dataParts := [(0, ([10], [1])), (1, ([20, 30], [1, 2]))]
    fitDatatype := Datatype.cupy
    uniq_labels := [[1, 2]]
    n_unique := [2]
    datatype := none }

/-- A concrete two-partition query spread over two workers. -/
def exQuery : QueryInput Nat :=
  { parts := [(1, [5, 6]), (0, [7])], nfeatures := 1, datatype := Datatype.cupy }

/-- The concrete session worker addresses of the witnesses. -/
def exWorkers : List Worker := [0, 1]

/-- A concrete per-row kernel channel function. -/
def exKer : Nat → Nat → Nat := fun o a => 10 * o + a

/-- A successful concrete execution of the classification kernel. -/
def exExec : PredictTask Nat Nat → Except KErr (List (List (List Nat))) :=
  fun t => Except.ok (localKernelClf exKer t.queryParts)

/-- A concrete per-entry probability function. -/
def exProb : Nat → Nat → Nat → Nat := fun o row c => 100 * o + 10 * row + c

/-- A successful concrete execution of the probability kernel. -/
def exProbExec : PredictTask Nat Nat → Except KErr (List (List (List (List Nat)))) :=
  fun t => Except.ok (localKernelProba exProb t.n_unique t.queryParts)

/-- A concrete stand-in for the local model predict entry point. -/
def exMP : PredictTask Nat Nat → Nat := fun _ => 0

/-- A concrete stand-in for the local model predict-proba entry point. -/
def exMB : PredictTask Nat Nat → Nat := fun _ => 1

/-- C3 witness: the concrete session, checked for worker 1. -/
theorem claim3_witness :
    ((KNeighborsClassifier.predictWave exModel exQuery exWorkers true).filter
        (fun t => t.placedOn == 1)).length = 1 ∧
    (∀ t ∈ KNeighborsClassifier.predictWave exModel exQuery exWorkers true, t.placedOn = 1 →
      t = { placedOn := 1
            modelOn := 1
            dataParts := worker_to_parts exModel.dataParts 1
            dataPartsToRanks :=
              (parts_to_ranks exWorkers exModel.dataParts (fun p => p.1.length)).1
            dataNrows := (parts_to_ranks exWorkers exModel.dataParts (fun p => p.1.length)).2
            queryParts := worker_to_parts exQuery.parts 1
            queryPartsToRanks := (parts_to_ranks exWorkers exQuery.parts List.length).1
            queryNrows := (parts_to_ranks exWorkers exQuery.parts List.length).2
            uniq_labels := exModel.uniq_labels
            n_unique := exModel.n_unique
            ncols := exQuery.nfeatures
            rank := exWorkers.indexOf 1
            convert_dtype := true
            probas_only := false }) ∧
    (∀ t ∈ KNeighborsClassifier.predictWave exModel exQuery exWorkers true,
      KNeighborsClassifier.func_predict exMP exMB t = exMP t) ∧
    ((KNeighborsClassifier.probaWave exModel exQuery exWorkers true).filter
        (fun t => t.placedOn == 1)).length = 1 ∧
    (∀ t ∈ KNeighborsClassifier.probaWave exModel exQuery exWorkers true, t.placedOn = 1 →
      t = { placedOn := 1
            modelOn := 1
            dataParts := worker_to_parts exModel.dataParts 1
            dataPartsToRanks :=
              (parts_to_ranks exWorkers exModel.dataParts (fun p => p.1.length)).1
            dataNrows := (parts_to_ranks exWorkers exModel.dataParts (fun p => p.1.length)).2
            queryParts := worker_to_parts exQuery.parts 1
            queryPartsToRanks := (parts_to_ranks exWorkers exQuery.parts List.length).1
            queryNrows := (parts_to_ranks exWorkers exQuery.parts List.length).2
            uniq_labels := exModel.uniq_labels
            n_unique := exModel.n_unique
            ncols := exQuery.nfeatures
            rank := exWorkers.indexOf 1
            convert_dtype := true
            probas_only := true }) ∧
    (∀ t ∈ KNeighborsClassifier.probaWave exModel exQuery exWorkers true,
      KNeighborsClassifier.func_predict exMP exMB t = exMB t) :=
  claim3_one_task_per_worker exModel exQuery exWorkers true (by decide) 1 (by decide) exMP exMB

/-- C4: `predict` returns the 3-tuple whose components are obtained by
extracting, for every query partition in original order, positional
elements 0 (predicted labels), 1 (neighbor indices) and 2 (neighbor
distances) of the owning worker's result tuple, each channel then
materialized in partition order. -/
theorem claim4_predict_channels (exec : PredictTask α L → Except KErr (List (List (List V))))
    (kerRow : Nat → α → V) (m : KNCModel α L) (q : QueryInput α) (workers : List Worker)
    (cd : Bool) (hnd : workers.Nodup) (hown : ∀ p ∈ q.parts, p.1 ∈ workers)
    (hexec : ∀ t ∈ KNeighborsClassifier.predictWave m q workers cd,
      exec t = Except.ok (localKernelClf kerRow t.queryParts)) :
    flatten_grouped_results (parts_to_ranks workers q.parts List.length).1
      (KNeighborsClassifier.rankResults exec m q workers cd false) (custom_getter 0) =
      some (q.parts.map (fun p => p.2.map (kerRow 0))) ∧
    flatten_grouped_results (parts_to_ranks workers q.parts List.length).1
      (KNeighborsClassifier.rankResults exec m q workers cd false) (custom_getter 1) =
      some (q.parts.map (fun p => p.2.map (kerRow 1))) ∧
    flatten_grouped_results (parts_to_ranks workers q.parts List.length).1
      (KNeighborsClassifier.rankResults exec m q workers cd false) (custom_getter 2) =
      some (q.parts.map (fun p => p.2.map (kerRow 2))) ∧
    (KNeighborsClassifier.predict exec m q workers cd).result =
      Except.ok (to_output (q.parts.map (fun p => p.2.map (kerRow 0))),
                 to_output (q.parts.map (fun p => p.2.map (kerRow 1))),
                 to_output (q.parts.map (fun p => p.2.map (kerRow 2)))) := by
  refine ⟨KNeighborsClassifier.flatten_channel_clf exec kerRow m q workers cd hnd hown hexec
      0 (by omega),
    KNeighborsClassifier.flatten_channel_clf exec kerRow m q workers cd hnd hown hexec
      1 (by omega),
    KNeighborsClassifier.flatten_channel_clf exec kerRow m q workers cd hnd hown hexec
      2 (by omega), ?_⟩
  show (KNeighborsClassifier.predictCore exec m q workers cd).1 = _
  rw [KNeighborsClassifier.predictCore_ok exec kerRow m q workers cd hnd hown hexec]

/-- C4 witness: the concrete session. -/
theorem claim4_witness :
    flatten_grouped_results (parts_to_ranks exWorkers exQuery.parts List.length).1
      (KNeighborsClassifier.rankResults exExec exModel exQuery exWorkers true false)
      (custom_getter 0) =
      some (exQuery.parts.map (fun p => p.2.map (exKer 0))) ∧
    flatten_grouped_results (parts_to_ranks exWorkers exQuery.parts List.length).1
      (KNeighborsClassifier.rankResults exExec exModel exQuery exWorkers true false)
      (custom_getter 1) =
      some (exQuery.parts.map (fun p => p.2.map (exKer 1))) ∧
    flatten_grouped_results (parts_to_ranks exWorkers exQuery.parts List.length).1
      (KNeighborsClassifier.rankResults exExec exModel exQuery exWorkers true false)
      (custom_getter 2) =
      some (exQuery.parts.map (fun p => p.2.map (exKer 2))) ∧
    (KNeighborsClassifier.predict exExec exModel exQuery exWorkers true).result =
      Except.ok (to_output (exQuery.parts.map (fun p => p.2.map (exKer 0))),
                 to_output (exQuery.parts.map (fun p => p.2.map (exKer 1))),
                 to_output (exQuery.parts.map (fun p => p.2.map (exKer 2)))) :=
  claim4_predict_channels exExec exKer exModel exQuery exWorkers true
    (by decide) (by decide) (fun t _ => rfl)

/-- C5: on a fitted model with K output targets, `predict_proba` returns a
tuple of exactly K probability outputs; the o-th is obtained by extracting
positional element o of each rank's result tuple across all query
partitions, and has row count equal to the query row count and column count
equal to that target's label cardinality. -/
theorem claim5_proba_channels
    (exec : PredictTask α L → Except KErr (List (List (List (List P)))))
    (prob : Nat → α → Nat → P) (m : KNCModel α L) (q : QueryInput α) (workers : List Worker)
    (cd : Bool) (hnd : workers.Nodup) (hown : ∀ p ∈ q.parts, p.1 ∈ workers)
    (hexec : ∀ t ∈ KNeighborsClassifier.probaWave m q workers cd,
      exec t = Except.ok (localKernelProba prob t.n_unique t.queryParts)) :
    (KNeighborsClassifier.predict_proba exec m q workers cd).result =
      Except.ok ((List.range m.n_unique.length).map (fun o =>
        to_output (q.parts.map (fun p => p.2.map (fun row =>
          (List.range (m.n_unique.getD o 0)).map (prob o row)))))) ∧
    (∀ mats, (KNeighborsClassifier.predict_proba exec m q workers cd).result =
        Except.ok mats →
      mats.length = m.n_unique.length ∧
      (∀ o, o < m.n_unique.length →
        mats[o]? = some (to_output (q.parts.map (fun p => p.2.map (fun row =>
          (List.range (m.n_unique.getD o 0)).map (prob o row))))) ∧
        (to_output (q.parts.map (fun p => p.2.map (fun row =>
          (List.range (m.n_unique.getD o 0)).map (prob o row))))).length =
          (parts_to_ranks workers q.parts List.length).2 ∧
        (∀ row ∈ to_output (q.parts.map (fun p => p.2.map (fun r0 =>
          (List.range (m.n_unique.getD o 0)).map (prob o r0)))),
          row.length = m.n_unique.getD o 0))) := by
  have hres : (KNeighborsClassifier.predict_proba exec m q workers cd).result =
      Except.ok ((List.range m.n_unique.length).map (fun o =>
        to_output (q.parts.map (fun p => p.2.map (fun row =>
          (List.range (m.n_unique.getD o 0)).map (prob o row)))))) := by
    show (KNeighborsClassifier.probaCore exec m q workers cd).1 = _
    rw [KNeighborsClassifier.probaCore_ok exec prob m q workers cd hnd hown hexec]
  refine ⟨hres, ?_⟩
  intro mats hmats
  rw [hres] at hmats
  obtain rfl := (Except.ok.inj hmats).symm
  refine ⟨by simp, ?_⟩
  intro o ho
  refine ⟨?_, ?_, ?_⟩
  · rw [List.getElem?_map, List.getElem?_range ho]
    rfl
  · show (List.flatten _).length = _
    rw [List.length_flatten]
    simp only [List.map_map, Function.comp_def, List.length_map]
    rfl
  · intro row hrow
    unfold to_output at hrow
    rw [List.mem_flatten] at hrow
    obtain ⟨l, hl, hrl⟩ := hrow
    obtain ⟨p, _, rfl⟩ := List.mem_map.mp hl
    obtain ⟨r0, _, rfl⟩ := List.mem_map.mp hrl
    simp

/-- C5 witness: the concrete session, with one output target of
cardinality two. -/
theorem claim5_witness :
    (KNeighborsClassifier.predict_proba exProbExec exModel exQuery exWorkers true).result =
      Except.ok ((List.range exModel.n_unique.length).map (fun o =>
        to_output (exQuery.parts.map (fun p => p.2.map (fun row =>
          (List.range (exModel.n_unique.getD o 0)).map (exProb o row)))))) ∧
    (∀ mats,
      (KNeighborsClassifier.predict_proba exProbExec exModel exQuery exWorkers true).result =
        Except.ok mats →
      mats.length = exModel.n_unique.length ∧
      (∀ o, o < exModel.n_unique.length →
        mats[o]? = some (to_output (exQuery.parts.map (fun p => p.2.map (fun row =>
          (List.range (exModel.n_unique.getD o 0)).map (exProb o row))))) ∧
        (to_output (exQuery.parts.map (fun p => p.2.map (fun row =>
          (List.range (exModel.n_unique.getD o 0)).map (exProb o row))))).length =
          (parts_to_ranks exWorkers exQuery.parts List.length).2 ∧
        (∀ row ∈ to_output (exQuery.parts.map (fun p => p.2.map (fun r0 =>
          (List.range (exModel.n_unique.getD o 0)).map (exProb o r0)))),
          row.length = exModel.n_unique.getD o 0))) :=
  claim5_proba_channels exProbExec exProb exModel exQuery exWorkers true
    (by decide) (by decide) (fun t _ => rfl)

/-- C6: fitting on a label input with K output columns computes exactly K
unique-label sets and K per-target cardinalities, each cardinality equal to
the number of distinct values in its column, caches them eagerly on the
model at fit time, and `predict`/`predict_proba` leave them unchanged. -/
theorem claim6_fit_unique [DecidableEq L] (dataParts : List (Worker × (List α × List L)))
    (K : Nat) (rows : List (List L)) (dt : Datatype)
    (hrect : ∀ r ∈ rows, r.length = K) :
    ∃ mm, KNeighborsClassifier.fit dataParts (KNeighborsClassifier.YInput.multi K rows) dt =
        some mm ∧
      mm.uniq_labels.length = K ∧
      mm.n_unique.length = K ∧
      (∀ i, i < K → mm.n_unique[i]? =
        some ((KNeighborsClassifier.columnOf rows i).toFinset.card)) ∧
      (∀ exec : PredictTask α L → Except KErr (List (List (List V))), ∀ q workers cd,
        (KNeighborsClassifier.predict exec mm q workers cd).modelAfter.uniq_labels =
          mm.uniq_labels ∧
        (KNeighborsClassifier.predict exec mm q workers cd).modelAfter.n_unique =
          mm.n_unique) ∧
      (∀ exec : PredictTask α L → Except KErr (List (List (List V))), ∀ q workers cd,
        (KNeighborsClassifier.predict_proba exec mm q workers cd).modelAfter.uniq_labels =
          mm.uniq_labels ∧
        (KNeighborsClassifier.predict_proba exec mm q workers cd).modelAfter.n_unique =
          mm.n_unique) := by
  cases dt with
  | cupy =>
    refine ⟨_, rfl, by simp, by simp, ?_, fun exec q workers cd => ⟨rfl, rfl⟩,
      fun exec q workers cd => ⟨rfl, rfl⟩⟩
    intro i hi
    rw [List.getElem?_map, List.getElem?_map, List.getElem?_range hi, List.card_toFinset]
    rfl
  | cudf =>
    refine ⟨_, rfl, by simp, by simp, ?_, fun exec q workers cd => ⟨rfl, rfl⟩,
      fun exec q workers cd => ⟨rfl, rfl⟩⟩
    intro i hi
    rw [List.getElem?_map, List.getElem?_map, List.getElem?_range hi, List.card_toFinset]
    rfl

/-- C6 witness: a two-column label input over two rows. -/
theorem claim6_witness :
    ∃ mm, KNeighborsClassifier.fit [((0 : Worker), (([10] : List Nat), ([1] : List Nat)))]
        (KNeighborsClassifier.YInput.multi 2 [[1, 2], [1, 3]]) Datatype.cupy = some mm ∧
      mm.uniq_labels.length = 2 ∧
      mm.n_unique.length = 2 ∧
      (∀ i, i < 2 → mm.n_unique[i]? =
        some ((KNeighborsClassifier.columnOf [[1, 2], [1, 3]] i).toFinset.card)) ∧
      (∀ exec : PredictTask Nat Nat → Except KErr (List (List (List Nat))), ∀ q workers cd,
        (KNeighborsClassifier.predict exec mm q workers cd).modelAfter.uniq_labels =
          mm.uniq_labels ∧
        (KNeighborsClassifier.predict exec mm q workers cd).modelAfter.n_unique =
          mm.n_unique) ∧
      (∀ exec : PredictTask Nat Nat → Except KErr (List (List (List Nat))), ∀ q workers cd,
        (KNeighborsClassifier.predict_proba exec mm q workers cd).modelAfter.uniq_labels =
          mm.uniq_labels ∧
        (KNeighborsClassifier.predict_proba exec mm q workers cd).modelAfter.n_unique =
          mm.n_unique) :=
  claim6_fit_unique [((0 : Worker), (([10] : List Nat), ([1] : List Nat)))] 2 [[1, 2], [1, 3]]
    Datatype.cupy (by decide)

/-- C7: both calls block on the full wave (every submitted task executes,
exactly one per worker, with no retry), and when any task failed the first
failing worker's exception is re-raised as the call's result, so no partial
results are returned. -/
theorem claim7_wave_failure (exec : PredictTask α L → Except KErr (List (List (List V))))
    (m : KNCModel α L) (q : QueryInput α) (workers : List Worker) (cd : Bool)
    (hnd : workers.Nodup) :
    ((KNeighborsClassifier.predict exec m q workers cd).executed =
      KNeighborsClassifier.predictWave m q workers cd) ∧
    (∀ w ∈ workers, (((KNeighborsClassifier.predict exec m q workers cd).executed).filter
      (fun t => t.placedOn == w)).length = 1) ∧
    (∀ e, firstErr ((KNeighborsClassifier.predictWave m q workers cd).map exec) = some e →
      (KNeighborsClassifier.predict exec m q workers cd).result = Except.error e) ∧
    ((KNeighborsClassifier.predict_proba exec m q workers cd).executed =
      KNeighborsClassifier.probaWave m q workers cd) ∧
    (∀ w ∈ workers, (((KNeighborsClassifier.predict_proba exec m q workers cd).executed).filter
      (fun t => t.placedOn == w)).length = 1) ∧
    (∀ e, firstErr ((KNeighborsClassifier.probaWave m q workers cd).map exec) = some e →
      (KNeighborsClassifier.predict_proba exec m q workers cd).result = Except.error e) := by
  refine ⟨rfl, ?_, ?_, rfl, ?_, ?_⟩
  · intro w hw
    show ((KNeighborsClassifier.predictWave m q workers cd).filter _).length = 1
    unfold KNeighborsClassifier.predictWave
    rw [KNeighborsClassifier.map_filter_placed
      (KNeighborsClassifier.mkPredictTask m q workers cd false) (fun x => rfl) w workers,
      List.length_map]
    exact KNeighborsClassifier.nodup_filter_eq_one w workers hnd hw
  · intro e he
    show (KNeighborsClassifier.predictCore exec m q workers cd).1 = _
    unfold KNeighborsClassifier.predictCore
    rw [he]
  · intro w hw
    show ((KNeighborsClassifier.probaWave m q workers cd).filter _).length = 1
    unfold KNeighborsClassifier.probaWave
    rw [KNeighborsClassifier.map_filter_placed
      (KNeighborsClassifier.mkPredictTask m q workers cd true) (fun x => rfl) w workers,
      List.length_map]
    exact KNeighborsClassifier.nodup_filter_eq_one w workers hnd hw
  · intro e he
    show (KNeighborsClassifier.probaCore exec m q workers cd).1 = _
    unfold KNeighborsClassifier.probaCore
    rw [he]

/-- A concrete execution in which every remote task raises. -/
def exFailExec : PredictTask Nat Nat → Except KErr (List (List (List Nat))) :=
  fun _ => Except.error (KErr.remote 7)

/-- C7 witness: the concrete session under a failing wave. -/
theorem claim7_witness :
    ((KNeighborsClassifier.predict exFailExec exModel exQuery exWorkers true).executed =
      KNeighborsClassifier.predictWave exModel exQuery exWorkers true) ∧
    (((KNeighborsClassifier.predict exFailExec exModel exQuery exWorkers true).executed).filter
      (fun t => t.placedOn == 1)).length = 1 ∧
    (KNeighborsClassifier.predict exFailExec exModel exQuery exWorkers true).result =
      Except.error (KErr.remote 7) ∧
    ((KNeighborsClassifier.predict_proba exFailExec exModel exQuery exWorkers true).executed =
      KNeighborsClassifier.probaWave exModel exQuery exWorkers true) ∧
    (((KNeighborsClassifier.predict_proba exFailExec exModel exQuery exWorkers
        true).executed).filter (fun t => t.placedOn == 1)).length = 1 ∧
    (KNeighborsClassifier.predict_proba exFailExec exModel exQuery exWorkers true).result =
      Except.error (KErr.remote 7) := by
  obtain ⟨h1, h2, h3, h4, h5, h6⟩ :=
    claim7_wave_failure exFailExec exModel exQuery exWorkers true (by decide)
  exact ⟨h1, h2 1 (by decide), h3 (KErr.remote 7) rfl, h4, h5 1 (by decide),
    h6 (KErr.remote 7) rfl⟩

/-- C8: per-worker model construction raises the distinct capability-missing
error of `raise_mg_import_exception` when importing `KNeighborsClassifierMG`
fails — not a generic remote task failure — and on success returns a
model bound to the executing worker's session-local communicator handle and
the hyperparameters. -/
theorem claim8_create_model {κ : Type _} (handleOf : Nat → Worker → Nat) (sessionId : Nat)
    (w : Worker) (kwargs : κ) :
    KNeighborsClassifier.func_create_model false handleOf sessionId w kwargs =
      Except.error KErr.mgImport ∧
    (∀ c, KErr.mgImport ≠ KErr.remote c) ∧
    KNeighborsClassifier.func_create_model true handleOf sessionId w kwargs =
      Except.ok { handle := handleOf sessionId w, kwargs := kwargs } :=
  ⟨rfl, fun _ h => KErr.noConfusion h, rfl⟩

/-- A concrete session-handle resolver. -/
def exHandle : Nat → Worker → Nat := fun s w => 100 * s + w

/-- C8 witness: a concrete session and worker. -/
theorem claim8_witness :
    KNeighborsClassifier.func_create_model false exHandle 5 2 (9 : Nat) =
      Except.error KErr.mgImport ∧
    KErr.mgImport ≠ KErr.remote 0 ∧
    KNeighborsClassifier.func_create_model true exHandle 5 2 (9 : Nat) =
      Except.ok { handle := exHandle 5 2, kwargs := 9 } :=
  ⟨(claim8_create_model exHandle 5 2 9).1, (claim8_create_model exHandle 5 2 9).2.1 0,
   (claim8_create_model exHandle 5 2 9).2.2⟩

/-- C9: `score` raises the ValueError reading Only Dask arrays are supported
exactly when the datatype recorded at fit time on the data handler is not
cupy — the query datatype, quantified freely here, plays no role — and it
does so only after the full distributed predict wave has executed; when the
fit-time datatype is cupy it returns the mean of the elementwise equality
of the predicted labels and `y`. -/
theorem claim9_score [DecidableEq V]
    (exec : PredictTask α L → Except KErr (List (List (List V))))
    (kerRow : Nat → α → V) (m : KNCModel α L) (q : QueryInput α) (y : List V)
    (workers : List Worker)
    (hnd : workers.Nodup) (hown : ∀ p ∈ q.parts, p.1 ∈ workers)
    (hexec : ∀ t ∈ KNeighborsClassifier.predictWave m q workers true,
      exec t = Except.ok (localKernelClf kerRow t.queryParts)) :
    (KNeighborsClassifier.score exec m q y workers).executed =
      KNeighborsClassifier.predictWave m q workers true ∧
    (m.fitDatatype ≠ Datatype.cupy →
      (KNeighborsClassifier.score exec m q y workers).result =
        Except.error KErr.valueErrorOnlyDaskArrays) ∧
    (m.fitDatatype = Datatype.cupy →
      (KNeighborsClassifier.score exec m q y workers).result =
        Except.ok (KNeighborsClassifier.boolMean (List.zipWith (fun a b => decide (a = b))
          (to_output (q.parts.map (fun p => p.2.map (kerRow 0)))) y))) := by
  have hcore := KNeighborsClassifier.predictCore_ok exec kerRow m q workers true hnd hown hexec
  refine ⟨?_, ?_, ?_⟩
  · unfold KNeighborsClassifier.score KNeighborsClassifier.predict
    rw [hcore]
    by_cases hc : m.fitDatatype = Datatype.cupy <;> simp [hc]
  · intro h
    unfold KNeighborsClassifier.score KNeighborsClassifier.predict
    rw [hcore]
    simp [h]
  · intro h
    unfold KNeighborsClassifier.score KNeighborsClassifier.predict
    rw [hcore]
    simp [h]

/-- The concrete test labels for the score witness. -/
def exY : List Nat := [5, 6, 7]

/-- C9 witness: the concrete session, fitted with the cupy datatype. -/
theorem claim9_witness :
    (KNeighborsClassifier.score exExec exModel exQuery exY exWorkers).executed =
      KNeighborsClassifier.predictWave exModel exQuery exWorkers true ∧
    (KNeighborsClassifier.score exExec exModel exQuery exY exWorkers).result =
      Except.ok (KNeighborsClassifier.boolMean (List.zipWith (fun a b => decide (a = b))
        (to_output (exQuery.parts.map (fun p => p.2.map (exKer 0)))) exY)) := by
  obtain ⟨h1, _, h3⟩ := claim9_score exExec exKer exModel exQuery exY exWorkers
    (by decide) (by decide) (fun t _ => rfl)
  exact ⟨h1, h3 rfl⟩
